import Mathlib

/-!
Verification development for the hotel-booking prediction serving pipeline
(cancellation classification and ADR regression).

The pandas/sklearn code is shallowly embedded: a `DF` is a data frame given
by a row count and a list of named columns, each column a list of cells.
A cell is a rational number, a string, or a null (NaN/NaT/None).  Row
filters are modelled as boolean keep-masks applied to every column, as
pandas does.  The IsolationForest anomaly scorer is an external library:
it is modelled as an abstract score oracle (`ScoreFn`) whose result is
thresholded exactly the way sklearn's `IsolationForest.predict` does
(offset at the contamination percentile of the scores, a row is dropped
iff its score is strictly below the offset); an oracle answer of `none`
models an exception raised while fitting/scoring.
-/

/-- A scalar cell of a data frame: a numeric value, a string, or a
null (pandas NaN/NaT/None). -/
inductive Cell
  | num (q : ℚ)
  | str (s : String)
  | null
deriving DecidableEq, Repr

def Cell.isNull : Cell → Bool
  | .null => true
  | _ => false

def Cell.isStr : Cell → Bool
  | .str _ => true
  | _ => false

def Cell.isNum : Cell → Bool
  | .num _ => true
  | _ => false

/-- A data frame: a row count (the length of the pandas index) and named
columns.  The row count is kept separately so that frames with no columns
still remember how many rows they have, as a pandas index does. -/
structure DF where
  nrows : Nat
  cols  : List (String × List Cell)
deriving DecidableEq, Repr

deriving instance DecidableEq for Except

/-- Well-formedness: every column has exactly `nrows` cells. -/
def DF.WF (df : DF) : Prop := ∀ c ∈ df.cols, c.2.length = df.nrows

instance (df : DF) : Decidable (DF.WF df) := by
  unfold DF.WF; infer_instance

def DF.colNames (df : DF) : List String := df.cols.map Prod.fst

def DF.getCol (df : DF) (name : String) : Option (List Cell) :=
  (df.cols.find? (fun c => c.1 == name)).map Prod.snd

def DF.hasCol (df : DF) (name : String) : Bool :=
  df.cols.any (fun c => c.1 == name)

/-- `df.drop(columns=names, errors='ignore')`. -/
def DF.dropCols (df : DF) (names : List String) : DF :=
  ⟨df.nrows, df.cols.filter (fun c => !(names.contains c.1))⟩

/-- Column assignment `df[name] = vals`: replaces the column in place if it
exists, otherwise appends it at the end, as pandas does. -/
def DF.setCol (df : DF) (name : String) (vals : List Cell) : DF :=
  if df.hasCol name then
    ⟨df.nrows, df.cols.map (fun c => if c.1 == name then (c.1, vals) else c)⟩
  else
    ⟨df.nrows, df.cols ++ [(name, vals)]⟩

/-- Keep the cells of `v` whose positions the mask marks `true`
(row selection `df[mask]` restricted to one column). -/
def maskFilter : List Bool → List Cell → List Cell
  | true :: bs, x :: xs => x :: maskFilter bs xs
  | false :: bs, _ :: xs => maskFilter bs xs
  | _, _ => []

/-- Boolean row selection `df[mask]`: every column is filtered by the same
keep-mask; the new row count is the number of `true` entries the mask has
over the old rows. -/
def DF.applyMask (df : DF) (mask : List Bool) : DF :=
  ⟨(mask.take df.nrows).count true,
   df.cols.map (fun c => (c.1, maskFilter mask c.2))⟩

/-- Pandas dtype of a column in this model: `object` iff the column holds
a string, or holds nothing but nulls (a `None`-valued column). -/
def isObjectDtype (v : List Cell) : Bool := v.any Cell.isStr || v.all Cell.isNull

/-- Numeric (`float64`/`int64`) dtype. -/
def isNumDtype (v : List Cell) : Bool := !isObjectDtype v

/-- `pd.DataFrame([features])`: a single-row frame from a flat record. -/
def dfOfRecord (features : List (String × Cell)) : DF :=
  ⟨1, features.map (fun p => (p.1, [p.2]))⟩

/-- Row-major view of selected columns: row `i` lists the `i`-th cell of
each column (the matrix handed to the anomaly scorer). -/
def matrixOf (n : Nat) (cols : List (String × List Cell)) : List (List Cell) :=
  (List.range n).map (fun i => cols.map (fun c => c.2.getD i Cell.null))

/-- Lexicographic strictly-less on code points (the order numpy/pandas
use when sorting column names and category values). -/
def strLtB : List Char → List Char → Bool
  | [], [] => false
  | [], _ :: _ => true
  | _ :: _, [] => false
  | a :: as, b :: bs =>
    if a.toNat < b.toNat then true
    else if b.toNat < a.toNat then false
    else strLtB as bs

def strLeB (a b : String) : Bool := !(strLtB b.toList a.toList)

/-- Ascending sort of names/categories by code point. -/
def sortStrings (l : List String) : List String :=
  List.insertionSort (fun a b => strLeB a b = true) l

/-! ## Outlier filter (sklearn IsolationForest semantics) -/

/-- `np.percentile(l, q)` with the default linear interpolation:
sort, take the fractional index `(n-1)*q/100`, interpolate. -/
def nppercentile (l : List ℚ) (q : ℚ) : ℚ :=
  let s := List.insertionSort (· ≤ ·) l
  let n := s.length
  if n = 0 then 0
  else
    let h : ℚ := ((n : ℚ) - 1) * q / 100
    let lo : ℕ := h.floor.toNat
    let a := s.getD lo 0
    let b := s.getD (lo + 1) a
    a + (h - (lo : ℚ)) * (b - a)

/-- `IsolationForest(contamination=0.1).fit_predict` thresholding: the
offset is the 10th percentile of the scores and a sample is an inlier
(kept) iff its score is not strictly below the offset. -/
def iforestKeep (scores : List ℚ) : List Bool :=
  let offset := nppercentile scores 10
  scores.map (fun s => decide (offset ≤ s))

/-- The anomaly scorer as an abstract oracle: given the numeric matrix it
returns the per-row scores, or `none` when fitting/scoring raises. -/
def ScoreFn := List (List Cell) → Option (List ℚ)

/-- Classification numeric predictors,
`df.select_dtypes(exclude='object').columns.difference(['is_canceled','adr'])`:
non-object columns minus the targets, in sorted name order
(`Index.difference` sorts). -/
def numericPredColsC (df : DF) : List (String × List Cell) :=
  let names := ((df.cols.filter (fun c => !isObjectDtype c.2)).map Prod.fst).filter
      (fun n => !(["is_canceled", "adr"].contains n))
  (sortStrings names).filterMap
    (fun n => (df.cols.find? (fun c => c.1 == n)).map (fun c => (n, c.2)))

/-- Regression numeric predictors,
`df.select_dtypes(include=['float64','int64']).columns.tolist()` with
`'adr'` removed: frame order, no sorting. -/
def predictorColsR (df : DF) : List (String × List Cell) :=
  (df.cols.filter (fun c => isNumDtype c.2)).filter (fun c => !(c.1 == "adr"))

/-- Outlier step of the classification pipeline
(backend/main_classification_api.py lines 44-52), returning the frame and
whether the except-branch warning was emitted: if there is at least one
numeric predictor column, fit-predict and keep the non-anomalous rows; an
oracle answer of `none` models the caught exception, which leaves the
frame untouched and prints a warning. -/
def outlierStepCW (sc : ScoreFn) (df : DF) : DF × Bool :=
  let ncols := numericPredColsC df
  if ncols.length > 0 then
    match sc (matrixOf df.nrows ncols) with
    | none => (df, true)
    | some scores => (df.applyMask (iforestKeep scores), false)
  else (df, false)

def outlierStepC (sc : ScoreFn) (df : DF) : DF := (outlierStepCW sc df).1

/-- Outlier step of the regression pipeline
(backend_regression/main_regression_api.py lines 69-83). -/
def outlierStepRW (sc : ScoreFn) (df : DF) : DF × Bool :=
  let pcols := predictorColsR df
  if pcols.length > 0 then
    match sc (matrixOf df.nrows pcols) with
    | none => (df, true)
    | some scores => (df.applyMask (iforestKeep scores), false)
  else (df, false)

def outlierStepR (sc : ScoreFn) (df : DF) : DF := (outlierStepRW sc df).1

/-! ## Record normalizer steps -/

/-- Null-row removal `df.dropna()`: keep a row iff every column is
non-null there. -/
def naKeepMask (df : DF) : List Bool :=
  (df.cols.map (fun c => c.2.map (fun x => !x.isNull))).foldl
    (fun acc m => List.zipWith and acc m) (List.replicate df.nrows true)

def dropnaStep (df : DF) : DF := df.applyMask (naKeepMask df)

/-- `cell == 0` elementwise: true only for the numeric cell 0 (as in
pandas, `NaN == 0` and `"s" == 0` are false). -/
def cellEqZero : Cell → Bool
  | .num q => q == 0
  | _ => false

/-- The keep-mask of the zero-occupancy filter
`~((df['adults']==0) & (df['children']==0) & (df['babies']==0))`. -/
def guestKeepMask : List Cell → List Cell → List Cell → List Bool
  | a :: as, c :: cs, b :: bs =>
      (!(cellEqZero a && cellEqZero c && cellEqZero b)) :: guestKeepMask as cs bs
  | _, _, _ => []

/-- Classification guest filter (backend/main_classification_api.py lines
31-33): unguarded column access, so a missing guest-count column raises a
KeyError (`adults` is read first, then `children`, then `babies`). -/
def guestStep (df : DF) : Except String DF :=
  match df.getCol "adults" with
  | none => .error "KeyError: adults"
  | some a =>
    match df.getCol "children" with
    | none => .error "KeyError: children"
    | some c =>
      match df.getCol "babies" with
      | none => .error "KeyError: babies"
      | some b => .ok (df.applyMask (guestKeepMask a c b))

/-- Regression guest filter (backend_regression/main_regression_api.py
lines 55-58): guarded by `issubset`, so when any of the three guest-count
columns is absent the filter is silently skipped. -/
def guestStepR (df : DF) : DF :=
  match df.getCol "adults", df.getCol "children", df.getCol "babies" with
  | some a, some c, some b => df.applyMask (guestKeepMask a c b)
  | _, _, _ => df

/-! ## Date parsing and calendar-feature derivation -/

/-- Split a character list on `'-'`. -/
def splitOnDash : List Char → List (List Char)
  | [] => [[]]
  | c :: rest =>
    let r := splitOnDash rest
    if c = '-' then [] :: r
    else
      match r with
      | g :: gs => (c :: g) :: gs
      | [] => [[c]]

def digitsToNat : List Char → Option Nat
  | [] => none
  | cs =>
    cs.foldl
      (fun acc c =>
        match acc with
        | none => none
        | some n => if c.isDigit then some (n * 10 + (c.toNat - 48)) else none)
      (some 0)

def isLeapYear (y : Nat) : Bool := (y % 4 == 0 && y % 100 != 0) || y % 400 == 0

def daysInMonth (y m : Nat) : Nat :=
  if m = 2 then (if isLeapYear y then 29 else 28)
  else if m ∈ [4, 6, 9, 11] then 30
  else 31

/-- Model of `pd.to_datetime(-, errors='coerce')` on the ISO `YYYY-MM-DD`
strings this data set carries: a valid ISO date parses, anything else
(including non-strings and nulls) coerces to a null date (NaT). -/
def parseDate (s : String) : Option (Nat × Nat × Nat) :=
  match splitOnDash s.toList with
  | [ys, ms, ds] =>
    match digitsToNat ys, digitsToNat ms, digitsToNat ds with
    | some y, some m, some d =>
        if 1 ≤ m ∧ m ≤ 12 ∧ 1 ≤ d ∧ d ≤ daysInMonth y m then some (y, m, d) else none
    | _, _, _ => none
  | _ => none

def cellToDate : Cell → Option (Nat × Nat × Nat)
  | .str s => parseDate s
  | _ => none

/-- Day of week with Monday = 0 (pandas `Series.dt.weekday`), via
Sakamoto's method (which yields Sunday = 0, shifted by 6). -/
def weekdayMon0 (y m d : Nat) : Nat :=
  let t : List Nat := [0, 3, 2, 5, 0, 3, 5, 1, 4, 6, 2, 4]
  let y2 := if m < 3 then y - 1 else y
  (y2 + y2 / 4 - y2 / 100 + y2 / 400 + t.getD (m - 1) 0 + d + 6) % 7

/-- A derived calendar column: null where the date is NaT (pandas
`.dt.year` etc. of NaT is NaN). -/
def dtField (f : Nat × Nat × Nat → Nat) (dates : List (Option (Nat × Nat × Nat))) :
    List Cell :=
  dates.map (fun o => match o with | none => Cell.null | some t => Cell.num (f t))

/-- Calendar-feature derivation (identical in all pipeline variants that
guard on the column): parse `reservation_status_date`, assign the four
derived integer fields, drop the source date column. -/
def dateStep (df : DF) : DF :=
  match df.getCol "reservation_status_date" with
  | none => df
  | some vals =>
    let dates := vals.map cellToDate
    let d1 := df.setCol "reservation_year" (dtField (fun t => t.1) dates)
    let d2 := d1.setCol "reservation_month" (dtField (fun t => t.2.1) dates)
    let d3 := d2.setCol "reservation_day" (dtField (fun t => t.2.2) dates)
    let d4 := d3.setCol "reservation_weekday"
        (dtField (fun t => weekdayMon0 t.1 t.2.1 t.2.2) dates)
    d4.dropCols ["reservation_status_date"]

/-! ## Imputation (regression pipeline, sklearn SimpleImputer) -/

def numsOf (v : List Cell) : List ℚ :=
  v.filterMap (fun x => match x with | Cell.num q => some q | _ => none)

def strValues (v : List Cell) : List String :=
  v.filterMap (fun x => match x with | Cell.str s => some s | _ => none)

/-- `np.median` of the non-null entries. -/
def median (l : List ℚ) : ℚ :=
  let s := List.insertionSort (· ≤ ·) l
  let n := s.length
  if n = 0 then 0
  else if n % 2 = 1 then s.getD (n / 2) 0
  else (s.getD (n / 2 - 1) 0 + s.getD (n / 2) 0) / 2

/-- Sorted distinct values of a string list. -/
def uniqueSorted (l : List String) : List String :=
  (sortStrings l).dedup

/-- `SimpleImputer(strategy='most_frequent')` fill value: the most
frequent value, smallest first on ties. -/
def modeStr (l : List String) : Option String :=
  (uniqueSorted l).foldl
    (fun best v =>
      match best with
      | none => some v
      | some b => if l.count b < l.count v then some v else best)
    none

def fillNulls (fill : Cell) (v : List Cell) : List Cell :=
  v.map (fun x => if x.isNull then fill else x)

/-- Missing-value imputation (backend_regression/main_regression_api.py
lines 43-53): numeric columns are filled with their median, object
columns with their most frequent value.  Both imputers act column by
column, so the two `fit_transform` assignments are modelled as one pass
over the columns.  (A column holding only nulls is left unchanged; there
sklearn's imputer would discard the column and the frame assignment would
raise, a case no caller reaches.) -/
def imputeCol (c : String × List Cell) : String × List Cell :=
  if isNumDtype c.2 then (c.1, fillNulls (Cell.num (median (numsOf c.2))) c.2)
  else
    match modeStr (strValues c.2) with
    | some m => (c.1, fillNulls (Cell.str m) c.2)
    | none => c

def imputeStep (df : DF) : DF := ⟨df.nrows, df.cols.map imputeCol⟩

/-! ## One-hot encoding (pd.get_dummies) -/

/-- Indicator columns for one source column: one `name_value` column per
distinct observed value in sorted order (nulls produce no indicator), the
first (baseline) category omitted when `dropFirst`. -/
def dummyCols (name : String) (v : List Cell) (dropFirst : Bool) :
    List (String × List Cell) :=
  let cats := uniqueSorted (strValues v)
  let cats := if dropFirst then cats.drop 1 else cats
  cats.map (fun cat =>
    (name ++ "_" ++ cat,
     v.map (fun x => if x = Cell.str cat then Cell.num 1 else Cell.num 0)))

/-- `pd.get_dummies(df, columns=cat_cols, drop_first, dtype=int)` where
`cat_cols` are the object-dtype columns: the non-encoded columns keep
their order, the indicator groups are appended after them.  When there
are no object columns the frame is returned unchanged (the callers guard
with `if cat_cols:`, and `get_dummies` with no columns is the identity). -/
def getDummiesStep (dropFirst : Bool) (df : DF) : DF :=
  let catCols := df.cols.filter (fun c => isObjectDtype c.2)
  if catCols.isEmpty then df
  else
    ⟨df.nrows,
     df.cols.filter (fun c => !isObjectDtype c.2)
       ++ catCols.flatMap (fun c => dummyCols c.1 c.2 dropFirst)⟩

/-- One-hot step of the classification pipelines
(backend/main_classification_api.py lines 61-63): `drop_first=True`. -/
def dummiesStep_classification (df : DF) : DF := getDummiesStep true df

/-- One-hot step of the regression API
(backend_regression/main_regression_api.py lines 86-88):
`drop_first=False`. -/
def dummiesStep_regression_api (df : DF) : DF := getDummiesStep false df

/-- One-hot step of the regression CLI variant
(src/src/regression_predict.py lines 77-80): `drop_first=True`. -/
def dummiesStep_regression_cli (df : DF) : DF := getDummiesStep true df

/-! ## Composed pipelines -/

/-- Record Normalizer of the classification pipeline
(backend/main_classification_api.py lines 28-42): leaky-column drop,
null-row drop, zero-occupancy filter, calendar-feature derivation.  In
the source these lines are the prefix of `eda_preprocess` before the
outlier filter. -/
def normalizeC (df : DF) : Except String DF :=
  (guestStep (dropnaStep (df.dropCols ["company", "agent"]))).map dateStep

def uselessColsC : List String :=
  ["days_in_waiting_list", "arrival_date_year", "arrival_date_month",
   "assigned_room_type", "booking_changes", "reservation_status", "country"]

/-- `eda_preprocess` for classification
(backend/main_classification_api.py lines 12-65). -/
def eda_preprocess (sc : ScoreFn) (df : DF) : Except String DF :=
  (normalizeC df).map (fun d =>
    getDummiesStep true
      (((outlierStepC sc d).dropCols uselessColsC).dropCols
        ["arrival_date_week_number"]))

def regDropCols : List String :=
  ["is_canceled", "booking_changes", "assigned_room_type",
   "reservation_status", "agent", "company", "days_in_waiting_list"]

/-- Record Normalizer of the regression pipeline
(backend_regression/main_regression_api.py lines 36-67): column drops,
imputation, guarded zero-occupancy filter, calendar-feature derivation. -/
def normalizeR (df : DF) : DF :=
  dateStep (guestStepR (imputeStep (df.dropCols regDropCols)))

/-- `eda_preprocess_regression` of the regression API
(backend_regression/main_regression_api.py lines 31-93). -/
def eda_preprocess_regression (sc : ScoreFn) (df : DF) : DF :=
  ((getDummiesStep false (outlierStepR sc (normalizeR df)))).dropCols ["adr"]

/-! ## Schema alignment and prediction preprocessing -/

/-- The `for col in expected_features: if col not in df.columns: df[col] = 0`
loop: append a zero-filled column for every schema column the frame lacks. -/
def addMissingCols (expected : List String) (df : DF) : DF :=
  expected.foldl
    (fun d n =>
      if d.hasCol n then d
      else ⟨d.nrows, d.cols ++ [(n, List.replicate d.nrows (Cell.num 0))]⟩)
    df

/-- `df[expected]`: select the listed columns in the listed order.  In
pandas a missing key raises; every caller runs `addMissingCols` first, so
each requested name is present and the missing-key case (modelled as a
silent skip) is unreachable. -/
def DF.selectCols (expected : List String) (df : DF) : DF :=
  ⟨df.nrows,
   expected.filterMap
     (fun n => (df.cols.find? (fun c => c.1 == n)).map (fun c => (n, c.2)))⟩

/-- Schema-alignment block of the classification API
(backend/main_classification_api.py lines 77-80). -/
def alignClassification (schema : List String) (df : DF) : DF :=
  DF.selectCols schema (addMissingCols schema df)

/-- `df.reindex(columns=schema, fill_value=0)`
(backend_regression/main_regression_api.py line 123): every schema
column, in order, taking the frame's values when present and zeros
otherwise. -/
def reindexStep (schema : List String) (df : DF) : DF :=
  ⟨df.nrows,
   schema.map (fun n =>
     (n, (df.getCol n).getD (List.replicate df.nrows (Cell.num 0))))⟩

/-- `preprocess_for_prediction_classification`
(backend/main_classification_api.py lines 67-81): EDA, target-column
drop, then alignment to the expected features passed in from startup. -/
def preprocess_for_prediction_classification (sc : ScoreFn) (input_df : DF)
    (expected_features : List String) : Except String DF :=
  (eda_preprocess sc input_df).map (fun d =>
    alignClassification expected_features (d.dropCols ["is_canceled", "adr"]))

/-- `preprocess_for_prediction_regression`
(backend_regression/main_regression_api.py lines 96-125): EDA, target
drop, then the add-missing loop and reindex against `store`, the
dummy-columns artifact as loaded by `joblib.load` DURING this call; the
`expected_features` parameter is accepted but never used for alignment. -/
def preprocess_for_prediction_regression (sc : ScoreFn) (store : List String)
    (input_df : DF) (expected_features : List String) : DF :=
  let df := eda_preprocess_regression sc input_df
  let df := df.dropCols ["adr"]
  let df := addMissingCols store df
  reindexStep store df

/-- `preprocess_for_prediction_classification` of the backend_classification
variant (backend_classification/main_classification_api.py lines 81-108):
EDA, then the add-missing loop and column reorder against `store`, the
dummy-columns artifact as loaded by `joblib.load` DURING this call. -/
def preprocess_for_prediction_classification_bc (sc : ScoreFn)
    (store : List String) (input_df : DF) : Except String DF :=
  (eda_preprocess sc input_df).map (fun d =>
    DF.selectCols store (addMissingCols store d))

/-! ## Inference facades -/

/-- Python `round(x, 2)` (round half to even at two decimals). -/
def halfEvenRound (x : ℚ) : ℤ :=
  if x - Rat.floor x = 1 / 2 then
    (if Rat.floor x % 2 = 0 then Rat.floor x else Rat.floor x + 1)
  else round x

def round2 (x : ℚ) : ℚ := (halfEvenRound (x * 100) : ℚ) / 100

/-- `/predict/cancellation` (backend/main_classification_api.py lines
100-120): build a single-row frame from the request record, preprocess,
invoke the black-box predictor; any exception becomes an HTTP 500 with
the original message. -/
def predict_cancellation (sc : ScoreFn) (expected_features : List String)
    (predict : DF → ℤ) (predictProba : DF → ℚ)
    (features : List (String × Cell)) : Except (Nat × String) (ℤ × ℚ) :=
  match preprocess_for_prediction_classification sc (dfOfRecord features)
      expected_features with
  | .error e => .error (500, e)
  | .ok X => .ok (predict X, round2 (predictProba X * 100))

/-- `np.expm1`, the inverse of the `log1p` transform applied to the ADR
target at training time (real-valued model; IEEE rounding is out of
scope). -/
noncomputable def expm1 (x : ℝ) : ℝ := Real.exp x - 1

/-- `/predict/adr` (backend_regression/main_regression_api.py lines
147-162): preprocess against the call-time dummy-columns artifact
`store`, predict in log space, and return `expm1` of the prediction. -/
noncomputable def predict_adr (sc : ScoreFn) (store : List String)
    (expected_features : List String) (predictLog : DF → ℝ)
    (features : List (String × Cell)) : ℝ :=
  expm1 (predictLog
    (preprocess_for_prediction_regression sc store (dfOfRecord features)
      expected_features))

/-! ## Helper lemmas: column lookup and schema alignment -/

theorem find?_some_of_any {α} (p : α → Bool) (l : List α) (h : l.any p = true) :
    ∃ x, l.find? p = some x := by
  induction l with
  | nil => simp at h
  | cons a t ih =>
    by_cases hp : p a
    · exact ⟨a, by simp [List.find?_cons, hp]⟩
    · simp only [List.any_cons, hp, Bool.false_or] at h
      obtain ⟨x, hx⟩ := ih h
      exact ⟨x, by simp [List.find?_cons, hp, hx]⟩

theorem find?_append_some {α} (p : α → Bool) {l1 : List α} (l2 : List α) {x : α}
    (h : l1.find? p = some x) : (l1 ++ l2).find? p = some x := by
  simp [List.find?_append, h]

theorem addMissingCols_nrows (e : List String) (df : DF) :
    (addMissingCols e df).nrows = df.nrows := by
  induction e generalizing df with
  | nil => rfl
  | cons n t ih =>
    show (addMissingCols t _).nrows = _
    by_cases h : df.hasCol n <;> simp only [addMissingCols, List.foldl_cons, h,
      if_true, if_false] <;> exact ih _

theorem hasCol_addMissingCols_mono (e : List String) (df : DF) (x : String)
    (h : df.hasCol x = true) : (addMissingCols e df).hasCol x = true := by
  induction e generalizing df with
  | nil => exact h
  | cons n t ih =>
    show (addMissingCols t _).hasCol x = true
    by_cases hn : df.hasCol n
    · simp only [addMissingCols, List.foldl_cons, hn, if_true]
      exact ih _ h
    · simp only [addMissingCols, List.foldl_cons, hn, if_false]
      apply ih
      simp only [DF.hasCol, List.any_append] at *
      simp [h]

theorem addMissingCols_hasCol (e : List String) (df : DF) (x : String)
    (h : x ∈ e) : (addMissingCols e df).hasCol x = true := by
  induction e generalizing df with
  | nil => cases h
  | cons n t ih =>
    show (addMissingCols t _).hasCol x = true
    rcases List.mem_cons.mp h with rfl | hx
    · apply hasCol_addMissingCols_mono
      by_cases hn : df.hasCol x
      · simp only [hn, if_true]
      · simp only [hn, if_false]
        simp [DF.hasCol, List.any_append]
    · by_cases hn : df.hasCol n <;>
        simp only [addMissingCols, List.foldl_cons, hn, if_true, if_false] <;>
        exact ih _ hx

theorem getCol_addMissingCols (e : List String) (df : DF) (x : String)
    (v : List Cell) (h : df.getCol x = some v) :
    (addMissingCols e df).getCol x = some v := by
  induction e generalizing df with
  | nil => exact h
  | cons n t ih =>
    show (addMissingCols t _).getCol x = some v
    by_cases hn : df.hasCol n
    · simp only [addMissingCols, List.foldl_cons, hn, if_true]
      exact ih _ h
    · simp only [addMissingCols, List.foldl_cons, hn, if_false]
      apply ih
      unfold DF.getCol at h ⊢
      obtain ⟨c, hc1, hc2⟩ := Option.map_eq_some'.mp h
      simp [find?_append_some _ _ hc1, hc2]

theorem selectCols_colNames (e : List String) (df : DF)
    (h : ∀ n ∈ e, df.hasCol n = true) : (DF.selectCols e df).colNames = e := by
  induction e with
  | nil => rfl
  | cons n t ih =>
    obtain ⟨c, hc⟩ := find?_some_of_any _ _ (h n (List.mem_cons_self n t))
    have ht := ih (fun m hm => h m (List.mem_cons_of_mem n hm))
    simp only [DF.selectCols, DF.colNames, List.filterMap_cons, hc,
      Option.map_some', List.map_cons] at *
    simpa using ht

theorem reindexStep_colNames (e : List String) (df : DF) :
    (reindexStep e df).colNames = e := by
  induction e with
  | nil => rfl
  | cons n t ih =>
    simp only [reindexStep, DF.colNames, List.map_cons] at *
    simpa using ih

theorem find?_selectList (e : List String) (cols : List (String × List Cell))
    (x : String) (c : String × List Cell) (hx : x ∈ e)
    (hf : cols.find? (fun p => p.1 == x) = some c) :
    (e.filterMap
        (fun n => (cols.find? (fun p => p.1 == n)).map (fun p => (n, p.2)))).find?
      (fun p => p.1 == x) = some (x, c.2) := by
  induction e with
  | nil => cases hx
  | cons n t ih =>
    by_cases hn : n = x
    · subst hn
      simp [List.filterMap_cons, hf, List.find?_cons]
    · rcases List.mem_cons.mp hx with rfl | hx2
      · exact absurd rfl hn
      cases hfind : cols.find? (fun p => p.1 == n) with
      | none =>
        simp only [List.filterMap_cons, hfind, Option.map_none']
        exact ih hx2
      | some d =>
        have hne : ((n, d.2).1 == x) = false := by
          simp [hn]
        simp only [List.filterMap_cons, hfind, Option.map_some', List.find?_cons, hne]
        exact ih hx2

theorem getCol_selectCols (e : List String) (df : DF) (x : String) (v : List Cell)
    (hx : x ∈ e) (h : df.getCol x = some v) :
    (DF.selectCols e df).getCol x = some v := by
  unfold DF.getCol at h
  obtain ⟨c, hc1, hc2⟩ := Option.map_eq_some'.mp h
  unfold DF.selectCols DF.getCol
  rw [find?_selectList e df.cols x c hx hc1]
  simp [hc2]

theorem getCol_reindexStep (e : List String) (df : DF) (x : String) (v : List Cell)
    (hx : x ∈ e) (h : df.getCol x = some v) :
    (reindexStep e df).getCol x = some v := by
  induction e with
  | nil => cases hx
  | cons n t ih =>
    by_cases hn : n = x
    · subst hn
      simp only [reindexStep, List.map_cons]
      rw [h]
      simp [DF.getCol, List.find?_cons]
    · rcases List.mem_cons.mp hx with rfl | hx2
      · exact absurd rfl hn
      have hne : ((n, (df.getCol n).getD (List.replicate df.nrows (Cell.num 0))).1 == x)
          = false := by simp [hn]
      have ht := ih hx2
      simp only [reindexStep, DF.getCol, List.map_cons, List.find?_cons, hne] at *
      exact ht

theorem applyMask_nrows_le (df : DF) (m : List Bool) :
    (df.applyMask m).nrows ≤ df.nrows := by
  simp only [DF.applyMask]
  calc (m.take df.nrows).count true ≤ (m.take df.nrows).length :=
        List.count_le_length _ _
    _ ≤ df.nrows := by simp [List.length_take]

theorem mem_maskFilter (m : List Bool) (v : List Cell) (x : Cell)
    (h : x ∈ maskFilter m v) : x ∈ v := by
  induction m generalizing v with
  | nil => cases v <;> simp [maskFilter] at h
  | cons b bs ih =>
    cases v with
    | nil => cases b <;> simp [maskFilter] at h
    | cons y ys =>
      cases b
      · simp only [maskFilter] at h
        exact List.mem_cons_of_mem _ (ih ys h)
      · simp only [maskFilter] at h
        rcases List.mem_cons.mp h with rfl | h2
        · exact List.mem_cons_self _ _
        · exact List.mem_cons_of_mem _ (ih ys h2)

/-! ## Helper lemmas: masks, dropna and the guest filter -/

theorem getD_bool_default (l : List Bool) (i : Nat) (h : l.getD i false = true) :
    l.getD i true = true := by
  induction l generalizing i with
  | nil => simp [List.getD] at h
  | cons b bs ih =>
    cases i with
    | zero => simpa using h
    | succ j => exact ih j (by simpa using h)

theorem zipWith_and_getD (p q : List Bool) (i : Nat)
    (h : (List.zipWith and p q).getD i false = true) :
    p.getD i false = true ∧ q.getD i false = true := by
  induction p generalizing q i with
  | nil => simp [List.getD] at h
  | cons a as ih =>
    cases q with
    | nil => simp [List.getD] at h
    | cons b bs =>
      cases i with
      | zero =>
        simp only [List.zipWith_cons_cons, List.getD_cons_zero] at h ⊢
        exact ⟨(Bool.and_eq_true _ _).mp h |>.1, (Bool.and_eq_true _ _).mp h |>.2⟩
      | succ j =>
        simp only [List.zipWith_cons_cons, List.getD_cons_succ] at h ⊢
        exact ih bs j h

theorem foldl_and_getD (ms : List (List Bool)) (init : List Bool) (i : Nat)
    (h : (ms.foldl (fun acc m => List.zipWith and acc m) init).getD i false = true) :
    init.getD i false = true ∧ ∀ m ∈ ms, m.getD i false = true := by
  induction ms generalizing init with
  | nil => exact ⟨h, by simp⟩
  | cons m t ih =>
    obtain ⟨h1, h2⟩ := ih (List.zipWith and init m) (by simpa using h)
    obtain ⟨h3, h4⟩ := zipWith_and_getD init m i h1
    exact ⟨h3, by
      intro m2 hm2
      rcases List.mem_cons.mp hm2 with rfl | hm3
      · exact h4
      · exact h2 m2 hm3⟩

theorem maskFilter_pred (p : Cell → Bool) (m : List Bool) (v : List Cell)
    (h : ∀ i, m.getD i false = true → (v.map p).getD i true = true) :
    ∀ x ∈ maskFilter m v, p x = true := by
  induction m generalizing v with
  | nil => intro x hx; cases v <;> simp [maskFilter] at hx
  | cons b bs ih =>
    cases v with
    | nil => intro x hx; cases b <;> simp [maskFilter] at hx
    | cons y ys =>
      cases b
      · intro x hx
        simp only [maskFilter] at hx
        exact ih ys (fun i hi => by simpa using h (i + 1) (by simpa using hi)) x hx
      · intro x hx
        simp only [maskFilter] at hx
        rcases List.mem_cons.mp hx with rfl | hx2
        · simpa using h 0 (by simp)
        · exact ih ys (fun i hi => by simpa using h (i + 1) (by simpa using hi)) x hx2

theorem dropnaStep_nonnull (df : DF) :
    ∀ c ∈ (dropnaStep df).cols, ∀ x ∈ c.2, x.isNull = false := by
  intro c hc x hx
  simp only [dropnaStep, DF.applyMask, List.mem_map] at hc
  obtain ⟨c0, hc0, rfl⟩ := hc
  have hp : (fun y => !Cell.isNull y) x = true := by
    refine maskFilter_pred (fun y => !y.isNull) (naKeepMask df) c0.2 ?_ x hx
    intro i hi
    have hmem : (c0.2.map (fun y => !y.isNull)) ∈
        df.cols.map (fun c => c.2.map (fun y => !y.isNull)) :=
      List.mem_map_of_mem _ hc0
    have := (foldl_and_getD _ _ i (by simpa [naKeepMask] using hi)).2 _ hmem
    exact getD_bool_default _ _ this
  simpa using hp

theorem guestKeepMask_sound (as cs bs : List Cell) (i : Nat) :
    ¬(cellEqZero ((maskFilter (guestKeepMask as cs bs) as).getD i Cell.null) = true
      ∧ cellEqZero ((maskFilter (guestKeepMask as cs bs) cs).getD i Cell.null) = true
      ∧ cellEqZero ((maskFilter (guestKeepMask as cs bs) bs).getD i Cell.null) = true) := by
  induction as generalizing cs bs i with
  | nil => simp [guestKeepMask, maskFilter, List.getD, cellEqZero]
  | cons a as2 ih =>
    cases cs with
    | nil => simp [guestKeepMask, maskFilter, List.getD, cellEqZero]
    | cons c cs2 =>
      cases bs with
      | nil => simp [guestKeepMask, maskFilter, List.getD, cellEqZero]
      | cons b bs2 =>
        simp only [guestKeepMask]
        cases hk : (cellEqZero a && cellEqZero c && cellEqZero b) with
        | true =>
          simp only [Bool.not_true, maskFilter]
          exact ih cs2 bs2 i
        | false =>
          simp only [Bool.not_false, maskFilter]
          cases i with
          | zero =>
            simp only [List.getD_cons_zero]
            intro ⟨h1, h2, h3⟩
            rw [h1, h2, h3] at hk
            simp at hk
          | succ j =>
            simp only [List.getD_cons_succ]
            exact ih cs2 bs2 j

theorem find?_map_setCol (t : List (String × List Cell)) (n x : String) (v : List Cell)
    (h : x ≠ n) :
    (t.map (fun c => if c.1 == n then (c.1, v) else c)).find? (fun c => c.1 == x)
      = t.find? (fun c => c.1 == x) := by
  induction t with
  | nil => rfl
  | cons c t ih =>
    by_cases hcn : c.1 = n
    · have hcx : (c.1 == x) = false := by
        simp only [beq_eq_false_iff_ne, ne_eq, hcn]
        exact fun e => h e.symm
      simp only [List.map_cons, List.find?_cons]
      rw [if_pos (by simpa using hcn)]
      rw [show ((c.1, v).1 == x) = false from hcx]
      exact ih
    · simp only [List.map_cons, List.find?_cons]
      rw [if_neg (by simpa using hcn)]
      by_cases hcx : c.1 = x
      · rw [show (c.1 == x) = true by simpa using hcx]
      · rw [show (c.1 == x) = false by simpa using hcx]
        exact ih

theorem getCol_setCol_ne (df : DF) (n : String) (v : List Cell) (x : String)
    (h : x ≠ n) : (df.setCol n v).getCol x = df.getCol x := by
  unfold DF.setCol
  by_cases hn : df.hasCol n
  · rw [if_pos hn]
    show ((df.cols.map (fun c => if c.1 == n then (c.1, v) else c)).find?
      (fun c => c.1 == x)).map Prod.snd = _
    rw [find?_map_setCol df.cols n x v h]
    rfl
  · rw [if_neg hn]
    show ((df.cols ++ [(n, v)]).find? (fun c => c.1 == x)).map Prod.snd = _
    rw [List.find?_append]
    have h2 : List.find? (fun c => c.1 == x) [(n, v)] = none := by
      rw [List.find?_cons,
        show ((n, v).1 == x) = false by
          simp only [beq_eq_false_iff_ne, ne_eq]
          exact fun e => h e.symm]
      rfl
    rw [h2]
    simp [DF.getCol]

theorem find?_filter_dropCols (t : List (String × List Cell)) (ns : List String)
    (x : String) (h : ns.contains x = false) :
    (t.filter (fun c => !(ns.contains c.1))).find? (fun c => c.1 == x)
      = t.find? (fun c => c.1 == x) := by
  induction t with
  | nil => rfl
  | cons c t ih =>
    rw [List.filter_cons]
    by_cases hcx : c.1 = x
    · rw [if_pos (by subst hcx; rw [h]; rfl)]
      rw [List.find?_cons, List.find?_cons,
        show (c.1 == x) = true by simpa using hcx]
    · cases hkeep : (!(ns.contains c.1)) with
      | true =>
        rw [if_pos rfl, List.find?_cons, List.find?_cons,
          show (c.1 == x) = false by simpa using hcx]
        exact ih
      | false =>
        rw [if_neg (by simp), List.find?_cons,
          show (c.1 == x) = false by simpa using hcx]
        exact ih

theorem getCol_dropCols_ne (df : DF) (ns : List String) (x : String)
    (h : ns.contains x = false) : (df.dropCols ns).getCol x = df.getCol x := by
  unfold DF.dropCols DF.getCol
  rw [find?_filter_dropCols df.cols ns x h]

theorem find?_map_mask (t : List (String × List Cell)) (m : List Bool) (x : String) :
    (t.map (fun c => (c.1, maskFilter m c.2))).find? (fun c => c.1 == x)
      = (t.find? (fun c => c.1 == x)).map (fun c => (c.1, maskFilter m c.2)) := by
  induction t with
  | nil => rfl
  | cons c t ih =>
    simp only [List.map_cons, List.find?_cons]
    by_cases hcx : c.1 = x
    · rw [show ((c.1, maskFilter m c.2).1 == x) = true by simpa using hcx]
      rfl
    · rw [show ((c.1, maskFilter m c.2).1 == x) = false by simpa using hcx]
      exact ih

theorem getCol_applyMask (df : DF) (m : List Bool) (x : String) :
    (df.applyMask m).getCol x = (df.getCol x).map (maskFilter m) := by
  unfold DF.applyMask DF.getCol
  show ((df.cols.map (fun c => (c.1, maskFilter m c.2))).find?
    (fun c => c.1 == x)).map Prod.snd = _
  rw [find?_map_mask]
  cases df.cols.find? (fun c => c.1 == x) <;> rfl

theorem mem_setCol (df : DF) (n : String) (v : List Cell)
    (c : String × List Cell) (h : c ∈ (df.setCol n v).cols) :
    c.1 = n ∨ c ∈ df.cols := by
  unfold DF.setCol at h
  by_cases hn : df.hasCol n
  · rw [if_pos hn] at h
    simp only [List.mem_map] at h
    obtain ⟨c0, hc0, heq⟩ := h
    by_cases hcn : (c0.1 == n) = true
    · rw [if_pos hcn] at heq
      exact Or.inl (heq ▸ (by simpa using hcn))
    · rw [if_neg hcn] at heq
      exact Or.inr (heq ▸ hc0)
  · rw [if_neg hn] at h
    rcases List.mem_append.mp h with h2 | h2
    · exact Or.inr h2
    · rcases List.mem_singleton.mp h2 with rfl
      exact Or.inl rfl

theorem mem_dropCols (df : DF) (ns : List String) (c : String × List Cell)
    (h : c ∈ (df.dropCols ns).cols) : c ∈ df.cols :=
  List.mem_of_mem_filter h

def derivedDateCols : List String :=
  ["reservation_year", "reservation_month", "reservation_day",
   "reservation_weekday"]

theorem mem_dateStep (df : DF) (c : String × List Cell)
    (h : c ∈ (dateStep df).cols) (hn : c.1 ∉ derivedDateCols) : c ∈ df.cols := by
  unfold dateStep at h
  cases hd : df.getCol "reservation_status_date" with
  | none => rw [hd] at h; exact h
  | some vals =>
    rw [hd] at h
    simp only [derivedDateCols, List.mem_cons, List.mem_singleton, not_or] at hn
    obtain ⟨h1, h2, h3, h4, _⟩ := hn
    have h5 := mem_dropCols _ _ _ h
    rcases mem_setCol _ _ _ _ h5 with h6 | h6
    · exact absurd h6 h4
    rcases mem_setCol _ _ _ _ h6 with h7 | h7
    · exact absurd h7 h3
    rcases mem_setCol _ _ _ _ h7 with h8 | h8
    · exact absurd h8 h2
    rcases mem_setCol _ _ _ _ h8 with h9 | h9
    · exact absurd h9 h1
    exact h9

theorem getCol_dateStep_ne (df : DF) (x : String) (h1 : x ∉ derivedDateCols)
    (h2 : x ≠ "reservation_status_date") :
    (dateStep df).getCol x = df.getCol x := by
  unfold dateStep
  cases hd : df.getCol "reservation_status_date" with
  | none => rfl
  | some vals =>
    simp only [derivedDateCols, List.mem_cons, List.mem_singleton, not_or] at h1
    obtain ⟨n1, n2, n3, n4, _⟩ := h1
    rw [getCol_dropCols_ne _ _ _ (by simpa using h2),
      getCol_setCol_ne _ _ _ _ n4, getCol_setCol_ne _ _ _ _ n3,
      getCol_setCol_ne _ _ _ _ n2, getCol_setCol_ne _ _ _ _ n1]

/-! ## Helper lemmas: the degenerate single-row anomaly fit -/

theorem nppercentile_singleton (s : ℚ) : nppercentile [s] 10 = s := by
  have h1 : List.insertionSort (fun a b => a ≤ b) [s] = [s] := rfl
  unfold nppercentile
  simp only [h1, List.length_singleton]
  norm_num
  rw [show (Rat.floor 0).toNat = 0 from rfl]
  simp

theorem iforestKeep_singleton (s : ℚ) : iforestKeep [s] = [true] := by
  unfold iforestKeep
  simp [nppercentile_singleton]

theorem matrixOf_length (n : Nat) (cols : List (String × List Cell)) :
    (matrixOf n cols).length = n := by
  simp [matrixOf]

theorem applyMask_true_singleton (df : DF) (hwf : DF.WF df) (h1 : df.nrows = 1) :
    df.applyMask [true] = df := by
  obtain ⟨n, cols⟩ := df
  simp only at h1
  subst h1
  unfold DF.applyMask
  congr 1
  have : ∀ c ∈ cols, (fun c => (c.1, maskFilter [true] c.2)) c = c := by
    intro c hc
    obtain ⟨a, ha⟩ := List.length_eq_one.mp (hwf c hc)
    show (c.1, maskFilter [true] c.2) = c
    rw [show maskFilter [true] c.2 = c.2 by rw [ha]; rfl]
  rw [List.map_congr_left this]
  exact List.map_id cols

/-- Score oracle that models an exception inside fitting/scoring. -/
def scNone : ScoreFn := fun _ => none

/-- Score oracle assigning every row the score 0 (length-correct). -/
def scZero : ScoreFn := fun m => some (m.map (fun _ => 0))

/-- C4: for every single-record batch that reaches the outlier filter, the
filter never removes the sole row: whether the numeric-column list is
empty (no fit), the fit raises (skip), or the fit runs (the 10th
percentile of one score is that score itself, and the sole sample is not
strictly below it), the output equals the input, for the classification
and the regression filter alike. -/
theorem C4_single_record_survives (sc : ScoreFn) (df : DF) (hwf : DF.WF df)
    (h1 : df.nrows = 1)
    (hs : ∀ m l, sc m = some l → l.length = m.length) :
    outlierStepC sc df = df ∧ outlierStepR sc df = df := by
  constructor
  · unfold outlierStepC outlierStepCW
    by_cases hc : (numericPredColsC df).length > 0
    · rw [if_pos hc]
      cases hsc : sc (matrixOf df.nrows (numericPredColsC df)) with
      | none => rfl
      | some l =>
        have hl : l.length = 1 := by rw [hs _ _ hsc, matrixOf_length, h1]
        obtain ⟨s, rfl⟩ := List.length_eq_one.mp hl
        show df.applyMask (iforestKeep [s]) = df
        rw [iforestKeep_singleton, applyMask_true_singleton df hwf h1]
    · rw [if_neg hc]
  · unfold outlierStepR outlierStepRW
    by_cases hc : (predictorColsR df).length > 0
    · rw [if_pos hc]
      cases hsc : sc (matrixOf df.nrows (predictorColsR df)) with
      | none => rfl
      | some l =>
        have hl : l.length = 1 := by rw [hs _ _ hsc, matrixOf_length, h1]
        obtain ⟨s, rfl⟩ := List.length_eq_one.mp hl
        show df.applyMask (iforestKeep [s]) = df
        rw [iforestKeep_singleton, applyMask_true_singleton df hwf h1]
    · rw [if_neg hc]

/-- C4 witness: a concrete one-row frame with one numeric predictor
column survives both outlier filters under a length-correct scorer. -/
theorem C4_single_record_survives_witness :
    outlierStepC scZero ⟨1, [("lead_time", [Cell.num 7])]⟩
        = ⟨1, [("lead_time", [Cell.num 7])]⟩
    ∧ outlierStepR scZero ⟨1, [("lead_time", [Cell.num 7])]⟩
        = ⟨1, [("lead_time", [Cell.num 7])]⟩ :=
  C4_single_record_survives scZero ⟨1, [("lead_time", [Cell.num 7])]⟩
    (by decide) (by decide)
    (fun m l hl => by cases hl; simp [List.length_map])

/-- C6: outlier-filter error recovery.  If fitting/scoring raises (the
warning flag of the try/except is set), the step returns its input frame
unchanged — same columns, same rows, nothing added; and unconditionally
the step never produces more rows than it was given (when it runs it can
only drop rows), for the classification and the regression filter
alike. -/
theorem C6_outlier_error_recovery (df : DF) (sc : ScoreFn) :
    ((outlierStepCW sc df).2 = true → (outlierStepCW sc df).1 = df)
  ∧ ((outlierStepRW sc df).2 = true → (outlierStepRW sc df).1 = df)
  ∧ (outlierStepC sc df).nrows ≤ df.nrows
  ∧ (outlierStepR sc df).nrows ≤ df.nrows := by
  refine ⟨?_, ?_, ?_, ?_⟩
  · intro h
    unfold outlierStepCW at h ⊢
    by_cases hc : (numericPredColsC df).length > 0
    · rw [if_pos hc] at h ⊢
      cases hsc : sc (matrixOf df.nrows (numericPredColsC df)) with
      | none => rfl
      | some l => rw [hsc] at h; simp at h
    · rw [if_neg hc]
  · intro h
    unfold outlierStepRW at h ⊢
    by_cases hc : (predictorColsR df).length > 0
    · rw [if_pos hc] at h ⊢
      cases hsc : sc (matrixOf df.nrows (predictorColsR df)) with
      | none => rfl
      | some l => rw [hsc] at h; simp at h
    · rw [if_neg hc]
  · unfold outlierStepC outlierStepCW
    by_cases hc : (numericPredColsC df).length > 0
    · rw [if_pos hc]
      cases sc (matrixOf df.nrows (numericPredColsC df)) with
      | none => exact le_refl _
      | some l => exact applyMask_nrows_le df (iforestKeep l)
    · rw [if_neg hc]
  · unfold outlierStepR outlierStepRW
    by_cases hc : (predictorColsR df).length > 0
    · rw [if_pos hc]
      cases sc (matrixOf df.nrows (predictorColsR df)) with
      | none => exact le_refl _
      | some l => exact applyMask_nrows_le df (iforestKeep l)
    · rw [if_neg hc]

/-- C6 witness: with a raising scorer on a concrete one-column frame, both
filters skip, keep the frame unchanged, and respect the row bound. -/
theorem C6_outlier_error_recovery_witness :
    (outlierStepCW scNone ⟨1, [("stays", [Cell.num 2])]⟩).1
        = ⟨1, [("stays", [Cell.num 2])]⟩
  ∧ (outlierStepRW scNone ⟨1, [("stays", [Cell.num 2])]⟩).1
        = ⟨1, [("stays", [Cell.num 2])]⟩
  ∧ (outlierStepC scNone ⟨1, [("stays", [Cell.num 2])]⟩).nrows ≤ 1
  ∧ (outlierStepR scNone ⟨1, [("stays", [Cell.num 2])]⟩).nrows ≤ 1 :=
  ⟨(C6_outlier_error_recovery ⟨1, [("stays", [Cell.num 2])]⟩ scNone).1 (by decide),
   (C6_outlier_error_recovery ⟨1, [("stays", [Cell.num 2])]⟩ scNone).2.1 (by decide),
   (C6_outlier_error_recovery ⟨1, [("stays", [Cell.num 2])]⟩ scNone).2.2.1,
   (C6_outlier_error_recovery ⟨1, [("stays", [Cell.num 2])]⟩ scNone).2.2.2⟩

theorem alignClassification_colNames (schema : List String) (df : DF) :
    (alignClassification schema df).colNames = schema :=
  selectCols_colNames schema _ (fun n hn => addMissingCols_hasCol schema df n hn)

/-- C1: schema invariant of the prediction preprocessing.  Whenever the
classification preprocessing returns a frame, its column list is exactly
the training-schema list passed from startup; and the regression
preprocessing always returns a frame whose column list is exactly the
training-time dummy-columns list it loads — for every input frame,
whatever extra, missing, or unseen-category columns it carries. -/
theorem C1_schema_invariant (sc : ScoreFn) (df : DF) (ef store : List String)
    (out : DF)
    (h : preprocess_for_prediction_classification sc df ef = Except.ok out) :
    out.colNames = ef
  ∧ (preprocess_for_prediction_regression sc store df ef).colNames = store := by
  constructor
  · unfold preprocess_for_prediction_classification at h
    cases he : eda_preprocess sc df with
    | error e => rw [he] at h; simp [Except.map] at h
    | ok d =>
      rw [he] at h
      simp only [Except.map] at h
      cases h
      exact alignClassification_colNames ef _
  · unfold preprocess_for_prediction_regression
    exact reindexStep_colNames store _

/-- C1 witness: a concrete guest-count-only record aligned to a schema
with one extra unseen column, in both pipelines. -/
theorem C1_schema_invariant_witness :
    (⟨1, [("adults", [Cell.num 1]), ("extra_col", [Cell.num 0])]⟩ : DF).colNames
        = ["adults", "extra_col"]
  ∧ (preprocess_for_prediction_regression scNone ["adults", "extra_col"]
      ⟨1, [("adults", [Cell.num 1]), ("children", [Cell.num 0]),
           ("babies", [Cell.num 0])]⟩ ["unused_param"]).colNames
      = ["adults", "extra_col"] :=
  C1_schema_invariant scNone
    ⟨1, [("adults", [Cell.num 1]), ("children", [Cell.num 0]),
         ("babies", [Cell.num 0])]⟩
    ["adults", "extra_col"] ["adults", "extra_col"]
    ⟨1, [("adults", [Cell.num 1]), ("extra_col", [Cell.num 0])]⟩ (by decide)

/-- C10: frame effect of the schema aligners.  For any column present in
both the encoded frame and the schema, alignment — the add-missing loop
plus column selection in the classification API, `reindex` in the
regression API — returns that column's values unchanged and keeps the row
count; it only adds zero-filled columns, drops non-schema columns and
reorders. -/
theorem C10_alignment_frame_effect (df : DF) (schema : List String)
    (col : String) (vals : List Cell)
    (h1 : df.getCol col = some vals) (h2 : col ∈ schema) :
    (alignClassification schema df).getCol col = some vals
  ∧ (alignClassification schema df).nrows = df.nrows
  ∧ (reindexStep schema df).getCol col = some vals
  ∧ (reindexStep schema df).nrows = df.nrows := by
  refine ⟨?_, ?_, ?_, rfl⟩
  · exact getCol_selectCols schema _ col vals h2
      (getCol_addMissingCols schema df col vals h1)
  · show (addMissingCols schema df).nrows = df.nrows
    exact addMissingCols_nrows schema df
  · exact getCol_reindexStep schema df col vals h2 h1

/-- C10 witness: a concrete two-row column kept intact by both aligners
while a missing schema column is added and order changes. -/
theorem C10_alignment_frame_effect_witness :
    (alignClassification ["extra_col", "lead_time"]
        ⟨2, [("lead_time", [Cell.num 4, Cell.num 9])]⟩).getCol "lead_time"
      = some [Cell.num 4, Cell.num 9]
  ∧ (alignClassification ["extra_col", "lead_time"]
        ⟨2, [("lead_time", [Cell.num 4, Cell.num 9])]⟩).nrows = 2
  ∧ (reindexStep ["extra_col", "lead_time"]
        ⟨2, [("lead_time", [Cell.num 4, Cell.num 9])]⟩).getCol "lead_time"
      = some [Cell.num 4, Cell.num 9]
  ∧ (reindexStep ["extra_col", "lead_time"]
        ⟨2, [("lead_time", [Cell.num 4, Cell.num 9])]⟩).nrows = 2 :=
  C10_alignment_frame_effect ⟨2, [("lead_time", [Cell.num 4, Cell.num 9])]⟩
    ["extra_col", "lead_time"] "lead_time" [Cell.num 4, Cell.num 9]
    (by decide) (by decide)

/-- C7 counterexample: the regression preprocessing reads the
dummy-columns artifact during the call, so the same request against the
same startup `expected_features` yields different frames when the
artifact store's contents change between the two runs — refuting the
claim that a call performs no artifact-store reads and depends only on
startup artifacts. -/
theorem C7_counterexample :
    preprocess_for_prediction_regression scNone ["col_a"]
        ⟨1, [("adults", [Cell.num 1])]⟩ ["frozen_startup_features"]
      ≠ preprocess_for_prediction_regression scNone ["col_b"]
        ⟨1, [("adults", [Cell.num 1])]⟩ ["frozen_startup_features"] := by
  decide

/-- C7 (amended): the backend_regression and backend_classification
pipelines re-read the dummy-columns artifact on every call, and the
resulting frame tracks the store contents at call time: its columns equal
the freshly loaded list, so two calls with the same request differ
whenever the artifact changed in between; determinism holds only per
store state. -/
theorem C7_store_dependence (sc : ScoreFn) (df : DF) (ef s1 s2 : List String)
    (out : DF) (hne : s1 ≠ s2)
    (hbc : preprocess_for_prediction_classification_bc sc s1 df = Except.ok out) :
    (preprocess_for_prediction_regression sc s1 df ef).colNames = s1
  ∧ (preprocess_for_prediction_regression sc s1 df ef).colNames
      ≠ (preprocess_for_prediction_regression sc s2 df ef).colNames
  ∧ out.colNames = s1 := by
  refine ⟨reindexStep_colNames s1 _, ?_, ?_⟩
  · unfold preprocess_for_prediction_regression
    rw [reindexStep_colNames s1 _, reindexStep_colNames s2 _]
    exact hne
  · unfold preprocess_for_prediction_classification_bc at hbc
    cases he : eda_preprocess sc df with
    | error e => rw [he] at hbc; simp [Except.map] at hbc
    | ok d =>
      rw [he] at hbc
      simp only [Except.map] at hbc
      cases hbc
      exact selectCols_colNames s1 _ (fun n hn => addMissingCols_hasCol s1 d n hn)

/-- C7 witness: concrete stores and a concrete record exercising the
store-tracked column lists in both per-request-loading pipelines. -/
theorem C7_store_dependence_witness :
    (preprocess_for_prediction_regression scNone ["col_a"]
        ⟨1, [("adults", [Cell.num 2]), ("children", [Cell.num 0]),
             ("babies", [Cell.num 0])]⟩ ["unused_param"]).colNames = ["col_a"]
  ∧ (preprocess_for_prediction_regression scNone ["col_a"]
        ⟨1, [("adults", [Cell.num 2]), ("children", [Cell.num 0]),
             ("babies", [Cell.num 0])]⟩ ["unused_param"]).colNames
      ≠ (preprocess_for_prediction_regression scNone ["col_b"]
        ⟨1, [("adults", [Cell.num 2]), ("children", [Cell.num 0]),
             ("babies", [Cell.num 0])]⟩ ["unused_param"]).colNames
  ∧ (⟨1, [("col_a", [Cell.num 0])]⟩ : DF).colNames = ["col_a"] :=
  C7_store_dependence scNone
    ⟨1, [("adults", [Cell.num 2]), ("children", [Cell.num 0]),
         ("babies", [Cell.num 0])]⟩
    ["unused_param"] ["col_a"] ["col_b"] ⟨1, [("col_a", [Cell.num 0])]⟩
    (by decide) (by decide)

/-- C2 counterexample: the regression CLI variant's one-hot step
(src/src/regression_predict.py, `drop_first=True`) does NOT retain every
observed category — for a column observing categories "A" and "B" it
emits only the `meal_B` indicator, while the regression API's step
(`drop_first=False`) emits both.  This refutes the claim that every
regression pipeline variant retains all observed categories. -/
theorem C2_counterexample :
    (dummiesStep_regression_cli
        ⟨2, [("meal", [Cell.str "A", Cell.str "B"])]⟩).colNames = ["meal_B"]
  ∧ (dummiesStep_regression_api
        ⟨2, [("meal", [Cell.str "A", Cell.str "B"])]⟩).colNames
      = ["meal_A", "meal_B"] := by
  decide

/-- C2 (amended): per-column encoding policy of the three pipelines on a
categorical (object-dtype) column: the regression API keeps an indicator
for every observed category; the classification pipeline AND the
regression CLI variant both drop the first (sorted) category as a
baseline.  The classification/regression asymmetry holds only between
the two API backends, not for the CLI regression variant. -/
theorem C2_encoding_policy (n : Nat) (name : String) (v : List Cell)
    (h : isObjectDtype v = true) :
    (dummiesStep_regression_api ⟨n, [(name, v)]⟩).colNames
      = (uniqueSorted (strValues v)).map (fun c => name ++ "_" ++ c)
  ∧ (dummiesStep_classification ⟨n, [(name, v)]⟩).colNames
      = ((uniqueSorted (strValues v)).drop 1).map (fun c => name ++ "_" ++ c)
  ∧ (dummiesStep_regression_cli ⟨n, [(name, v)]⟩).colNames
      = ((uniqueSorted (strValues v)).drop 1).map (fun c => name ++ "_" ++ c) := by
  refine ⟨?_, ?_, ?_⟩ <;>
    simp only [dummiesStep_regression_api, dummiesStep_classification,
      dummiesStep_regression_cli, getDummiesStep, DF.colNames, dummyCols] <;>
    simp [h, List.map_map, Function.comp_def]

/-- C2 witness: the policy at a concrete two-category column. -/
theorem C2_encoding_policy_witness :
    (dummiesStep_regression_api
        ⟨2, [("segment", [Cell.str "Direct", Cell.str "Online"])]⟩).colNames
      = (uniqueSorted (strValues [Cell.str "Direct", Cell.str "Online"])).map
          (fun c => "segment" ++ "_" ++ c)
  ∧ (dummiesStep_classification
        ⟨2, [("segment", [Cell.str "Direct", Cell.str "Online"])]⟩).colNames
      = ((uniqueSorted (strValues [Cell.str "Direct", Cell.str "Online"])).drop 1).map
          (fun c => "segment" ++ "_" ++ c)
  ∧ (dummiesStep_regression_cli
        ⟨2, [("segment", [Cell.str "Direct", Cell.str "Online"])]⟩).colNames
      = ((uniqueSorted (strValues [Cell.str "Direct", Cell.str "Online"])).drop 1).map
          (fun c => "segment" ++ "_" ++ c) :=
  C2_encoding_policy 2 "segment" [Cell.str "Direct", Cell.str "Online"] (by decide)

/-- C3 (code evaluation): behavior at a request missing a guest-count
column.  The regression pipeline's `issubset` guard silently skips the
zero-occupancy filter — the call proceeds and even an occupancy-less
record is retained (row count stays 1, no error) — while the
classification facade does fail but surfaces the KeyError as the uniform
HTTP 500 internal fault, not as a 4xx client fault.  Both contradict the
claim that every such call fails with a 4xx-equivalent client error. -/
theorem C3_missing_guest_column_behavior :
    (eda_preprocess_regression scNone
        ⟨1, [("adults", [Cell.num 0]), ("babies", [Cell.num 0]),
             ("adr", [Cell.num 85])]⟩).nrows = 1
  ∧ predict_cancellation scNone ["lead_time"] (fun _ => 0) (fun _ => 0)
      [("children", Cell.num 0), ("babies", Cell.num 0)]
      = Except.error (500, "KeyError: adults") := by
  constructor
  · decide
  · rfl

/-- C8: the regression facade's response is exactly `expm1` of the
predictor's log-space output; `expm1 0 = 0`, `expm1 (ln 101) = 100`, and
`expm1` of any real stays strictly above `-1`. -/
theorem C8_inverse_transform :
    (∀ sc store ef pl fs, predict_adr sc store ef pl fs
        = expm1 (pl (preprocess_for_prediction_regression sc store
            (dfOfRecord fs) ef)))
  ∧ expm1 0 = 0
  ∧ expm1 (Real.log 101) = 100
  ∧ ∀ p : ℝ, -1 < expm1 p := by
  refine ⟨fun _ _ _ _ _ => rfl, ?_, ?_, fun p => ?_⟩
  · simp [expm1]
  · rw [expm1, Real.exp_log (by norm_num)]
    norm_num
  · have hp := Real.exp_pos p
    unfold expm1
    linarith

theorem find?_map_setCol_self (l : List (String × List Cell)) (n : String)
    (v : List Cell) (h : l.any (fun c => c.1 == n) = true) :
    ((l.map (fun c => if c.1 == n then (c.1, v) else c)).find?
      (fun c => c.1 == n)).map Prod.snd = some v := by
  induction l with
  | nil => simp at h
  | cons c t ih =>
    cases hc : (c.1 == n) with
    | true =>
      simp only [List.map_cons, List.find?_cons]
      rw [if_pos hc, show ((c.1, v).1 == n) = true from hc]
      rfl
    | false =>
      simp only [List.map_cons, List.find?_cons]
      rw [if_neg (by simp [hc]), show (c.1 == n) = false from hc]
      apply ih
      simpa [hc] using h

theorem getCol_setCol_self (df : DF) (n : String) (v : List Cell) :
    (df.setCol n v).getCol n = some v := by
  unfold DF.setCol
  by_cases hn : df.hasCol n
  · rw [if_pos hn]
    exact find?_map_setCol_self df.cols n v hn
  · rw [if_neg hn]
    show ((df.cols ++ [(n, v)]).find? (fun c => c.1 == n)).map Prod.snd = some v
    rw [List.find?_append]
    have h0 : df.cols.find? (fun c => c.1 == n) = none := by
      apply List.find?_eq_none.mpr
      intro c hc hcn
      exact hn (List.any_eq_true.mpr ⟨c, hc, hcn⟩)
    rw [h0]
    simp [List.find?_cons]

theorem find?_map_namePreserving (f : String × List Cell → String × List Cell)
    (hf : ∀ c, (f c).1 = c.1) (l : List (String × List Cell)) (x : String) :
    (l.map f).find? (fun c => c.1 == x)
      = (l.find? (fun c => c.1 == x)).map f := by
  induction l with
  | nil => rfl
  | cons c t ih =>
    simp only [List.map_cons, List.find?_cons]
    cases hc : (c.1 == x) with
    | true =>
      rw [show ((f c).1 == x) = true by rw [hf c]; exact hc]
      rfl
    | false =>
      rw [show ((f c).1 == x) = false by rw [hf c]; exact hc]
      exact ih

theorem imputeCol_fst (c : String × List Cell) : (imputeCol c).1 = c.1 := by
  unfold imputeCol
  split
  · rfl
  · split <;> rfl

theorem getCol_imputeStep_isSome (X : DF) (x : String) (v : List Cell)
    (h : X.getCol x = some v) : ∃ w, (imputeStep X).getCol x = some w := by
  unfold DF.getCol at h
  obtain ⟨c0, hc1, _⟩ := Option.map_eq_some'.mp h
  refine ⟨(imputeCol c0).2, ?_⟩
  show ((X.cols.map imputeCol).find? (fun c => c.1 == x)).map Prod.snd = _
  rw [find?_map_namePreserving imputeCol imputeCol_fst X.cols x, hc1]
  rfl

theorem getCol_guestStepR_isSome (Y : DF) (x : String) (w : List Cell)
    (hY : Y.getCol x = some w) : ∃ u, (guestStepR Y).getCol x = some u := by
  unfold guestStepR
  cases ha : Y.getCol "adults" with
  | none => exact ⟨w, hY⟩
  | some ga =>
    cases hcc : Y.getCol "children" with
    | none => exact ⟨w, hY⟩
    | some gcc =>
      cases hbb : Y.getCol "babies" with
      | none => exact ⟨w, hY⟩
      | some gbb =>
        refine ⟨maskFilter (guestKeepMask ga gcc gbb) w, ?_⟩
        show (Y.applyMask (guestKeepMask ga gcc gbb)).getCol x = _
        rw [getCol_applyMask, hY]
        rfl

theorem guestStep_ok_getCol_isSome (Y d : DF) (x : String) (w : List Cell)
    (hY : Y.getCol x = some w) (h : guestStep Y = Except.ok d) :
    ∃ u, d.getCol x = some u := by
  unfold guestStep at h
  cases ha : Y.getCol "adults" with
  | none => rw [ha] at h; cases h
  | some ga =>
    rw [ha] at h
    cases hcc : Y.getCol "children" with
    | none => rw [hcc] at h; cases h
    | some gcc =>
      rw [hcc] at h
      cases hbb : Y.getCol "babies" with
      | none => rw [hbb] at h; cases h
      | some gbb =>
        rw [hbb] at h
        cases h
        exact ⟨_, by rw [getCol_applyMask, hY]; rfl⟩

theorem not_mem_colNames_dropCols (df : DF) (ns : List String) (x : String)
    (hx : ns.contains x = true) : x ∉ (df.dropCols ns).colNames := by
  intro hmem
  simp only [DF.dropCols, DF.colNames, List.mem_map] at hmem
  obtain ⟨c, hc, rfl⟩ := hmem
  have hkeep := (List.mem_filter.mp hc).2
  rw [hx] at hkeep
  simp at hkeep

theorem dtField_getD (f : Nat × Nat × Nat → Nat) (vals : List Cell) (i : Nat)
    (t : Nat × Nat × Nat) (hi : cellToDate (vals.getD i Cell.null) = some t) :
    (dtField f (vals.map cellToDate)).getD i Cell.null = Cell.num (f t) := by
  induction vals generalizing i with
  | nil => simp [List.getD, cellToDate] at hi
  | cons v vs ih =>
    cases i with
    | zero =>
      simp only [List.getD_cons_zero] at hi
      simp only [List.map_cons, dtField, List.getD_cons_zero]
      rw [hi]
    | succ j =>
      simp only [List.getD_cons_succ] at hi
      simp only [List.map_cons, dtField, List.getD_cons_succ]
      exact ih j hi

/-- Specification of the calendar-derivation step on ANY frame carrying a
status-date column: the four derived columns hold exactly the pointwise
parse-and-extract of the date cells, and the source date column is
removed. -/
theorem dateStep_spec (d : DF) (dvals : List Cell)
    (hd : d.getCol "reservation_status_date" = some dvals) :
    (dateStep d).getCol "reservation_year"
        = some (dtField (fun t => t.1) (dvals.map cellToDate))
  ∧ (dateStep d).getCol "reservation_month"
        = some (dtField (fun t => t.2.1) (dvals.map cellToDate))
  ∧ (dateStep d).getCol "reservation_day"
        = some (dtField (fun t => t.2.2) (dvals.map cellToDate))
  ∧ (dateStep d).getCol "reservation_weekday"
        = some (dtField (fun t => weekdayMon0 t.1 t.2.1 t.2.2)
            (dvals.map cellToDate))
  ∧ "reservation_status_date" ∉ (dateStep d).colNames := by
  unfold dateStep
  simp only [hd]
  refine ⟨?_, ?_, ?_, ?_, ?_⟩
  · rw [getCol_dropCols_ne _ _ _ (by decide), getCol_setCol_ne _ _ _ _ (by decide),
      getCol_setCol_ne _ _ _ _ (by decide), getCol_setCol_ne _ _ _ _ (by decide),
      getCol_setCol_self]
  · rw [getCol_dropCols_ne _ _ _ (by decide), getCol_setCol_ne _ _ _ _ (by decide),
      getCol_setCol_ne _ _ _ _ (by decide), getCol_setCol_self]
  · rw [getCol_dropCols_ne _ _ _ (by decide), getCol_setCol_ne _ _ _ _ (by decide),
      getCol_setCol_self]
  · rw [getCol_dropCols_ne _ _ _ (by decide), getCol_setCol_self]
  · exact not_mem_colNames_dropCols _ _ _ (by decide)

/-- C9: for every record set carrying a `reservation_status_date` column
— any number of rows, any extra columns — the Record Normalizer's
calendar-derivation step produces the four derived columns as the
pointwise parse of the date cells, and at every row whose date cell
parses to 2017-03-05 (a Sunday) the derived values are
`reservation_year = 2017`, `reservation_month = 3`, `reservation_day = 5`
and `reservation_weekday = 6` (ISO weekday with Monday = 0); the source
`reservation_status_date` column is removed from the derivation step's
output, from the classification normalizer's output and from the
regression normalizer's output. -/
theorem C9_date_derivation (df out : DF) (vals : List Cell) (i : Nat)
    (hdate : df.getCol "reservation_status_date" = some vals)
    (hi : cellToDate (vals.getD i Cell.null) = some (2017, 3, 5))
    (hC : normalizeC df = Except.ok out) :
    (dateStep df).getCol "reservation_year"
        = some (dtField (fun t => t.1) (vals.map cellToDate))
  ∧ (dateStep df).getCol "reservation_month"
        = some (dtField (fun t => t.2.1) (vals.map cellToDate))
  ∧ (dateStep df).getCol "reservation_day"
        = some (dtField (fun t => t.2.2) (vals.map cellToDate))
  ∧ (dateStep df).getCol "reservation_weekday"
        = some (dtField (fun t => weekdayMon0 t.1 t.2.1 t.2.2)
            (vals.map cellToDate))
  ∧ (dtField (fun t => t.1) (vals.map cellToDate)).getD i Cell.null
        = Cell.num 2017
  ∧ (dtField (fun t => t.2.1) (vals.map cellToDate)).getD i Cell.null
        = Cell.num 3
  ∧ (dtField (fun t => t.2.2) (vals.map cellToDate)).getD i Cell.null
        = Cell.num 5
  ∧ (dtField (fun t => weekdayMon0 t.1 t.2.1 t.2.2)
        (vals.map cellToDate)).getD i Cell.null = Cell.num 6
  ∧ "reservation_status_date" ∉ (dateStep df).colNames
  ∧ "reservation_status_date" ∉ out.colNames
  ∧ "reservation_status_date" ∉ (normalizeR df).colNames := by
  obtain ⟨hy, hmo, hda, hwk, hrm⟩ := dateStep_spec df vals hdate
  refine ⟨hy, hmo, hda, hwk, dtField_getD _ _ _ _ hi, dtField_getD _ _ _ _ hi,
    dtField_getD _ _ _ _ hi, dtField_getD _ _ _ _ hi, hrm, ?_, ?_⟩
  · unfold normalizeC at hC
    cases hg : guestStep (dropnaStep (df.dropCols ["company", "agent"])) with
    | error e => rw [hg] at hC; simp [Except.map] at hC
    | ok d =>
      rw [hg] at hC
      simp only [Except.map] at hC
      cases hC
      have h1 : (df.dropCols ["company", "agent"]).getCol
          "reservation_status_date" = some vals := by
        rw [getCol_dropCols_ne _ _ _ (by decide)]
        exact hdate
      have h2 : (dropnaStep (df.dropCols ["company", "agent"])).getCol
          "reservation_status_date"
          = some (maskFilter (naKeepMask (df.dropCols ["company", "agent"])) vals) := by
        unfold dropnaStep
        rw [getCol_applyMask, h1]
        rfl
      obtain ⟨u, hu⟩ := guestStep_ok_getCol_isSome _ _ _ _ h2 hg
      exact (dateStep_spec d u hu).2.2.2.2
  · have hr1 : (df.dropCols regDropCols).getCol "reservation_status_date"
        = some vals := by
      rw [getCol_dropCols_ne _ _ _ (by decide)]
      exact hdate
    obtain ⟨w2, hw2⟩ := getCol_imputeStep_isSome _ _ _ hr1
    obtain ⟨w3, hw3⟩ := getCol_guestStepR_isSome _ _ _ hw2
    exact (dateStep_spec _ _ hw3).2.2.2.2

/-- C9 witness: a two-row record set with an extra `lead_time` column;
row 0 parses to 2017-03-05 and row 1 to 2016-07-01 (a Friday). -/
theorem C9_date_derivation_witness :
    (dateStep ⟨2, [("adults", [Cell.num 2, Cell.num 1]),
        ("children", [Cell.num 0, Cell.num 0]),
        ("babies", [Cell.num 0, Cell.num 0]),
        ("lead_time", [Cell.num 10, Cell.num 20]),
        ("reservation_status_date",
          [Cell.str "2017-03-05", Cell.str "2016-07-01"])]⟩).getCol
        "reservation_year"
      = some (dtField (fun t => t.1)
          ([Cell.str "2017-03-05", Cell.str "2016-07-01"].map cellToDate))
  ∧ (dateStep ⟨2, [("adults", [Cell.num 2, Cell.num 1]),
        ("children", [Cell.num 0, Cell.num 0]),
        ("babies", [Cell.num 0, Cell.num 0]),
        ("lead_time", [Cell.num 10, Cell.num 20]),
        ("reservation_status_date",
          [Cell.str "2017-03-05", Cell.str "2016-07-01"])]⟩).getCol
        "reservation_month"
      = some (dtField (fun t => t.2.1)
          ([Cell.str "2017-03-05", Cell.str "2016-07-01"].map cellToDate))
  ∧ (dateStep ⟨2, [("adults", [Cell.num 2, Cell.num 1]),
        ("children", [Cell.num 0, Cell.num 0]),
        ("babies", [Cell.num 0, Cell.num 0]),
        ("lead_time", [Cell.num 10, Cell.num 20]),
        ("reservation_status_date",
          [Cell.str "2017-03-05", Cell.str "2016-07-01"])]⟩).getCol
        "reservation_day"
      = some (dtField (fun t => t.2.2)
          ([Cell.str "2017-03-05", Cell.str "2016-07-01"].map cellToDate))
  ∧ (dateStep ⟨2, [("adults", [Cell.num 2, Cell.num 1]),
        ("children", [Cell.num 0, Cell.num 0]),
        ("babies", [Cell.num 0, Cell.num 0]),
        ("lead_time", [Cell.num 10, Cell.num 20]),
        ("reservation_status_date",
          [Cell.str "2017-03-05", Cell.str "2016-07-01"])]⟩).getCol
        "reservation_weekday"
      = some (dtField (fun t => weekdayMon0 t.1 t.2.1 t.2.2)
          ([Cell.str "2017-03-05", Cell.str "2016-07-01"].map cellToDate))
  ∧ (dtField (fun t => t.1)
        ([Cell.str "2017-03-05", Cell.str "2016-07-01"].map cellToDate)).getD 0
        Cell.null = Cell.num 2017
  ∧ (dtField (fun t => t.2.1)
        ([Cell.str "2017-03-05", Cell.str "2016-07-01"].map cellToDate)).getD 0
        Cell.null = Cell.num 3
  ∧ (dtField (fun t => t.2.2)
        ([Cell.str "2017-03-05", Cell.str "2016-07-01"].map cellToDate)).getD 0
        Cell.null = Cell.num 5
  ∧ (dtField (fun t => weekdayMon0 t.1 t.2.1 t.2.2)
        ([Cell.str "2017-03-05", Cell.str "2016-07-01"].map cellToDate)).getD 0
        Cell.null = Cell.num 6
  ∧ "reservation_status_date" ∉ (dateStep ⟨2, [("adults", [Cell.num 2, Cell.num 1]),
        ("children", [Cell.num 0, Cell.num 0]),
        ("babies", [Cell.num 0, Cell.num 0]),
        ("lead_time", [Cell.num 10, Cell.num 20]),
        ("reservation_status_date",
          [Cell.str "2017-03-05", Cell.str "2016-07-01"])]⟩).colNames
  ∧ "reservation_status_date" ∉ (⟨2, [("adults", [Cell.num 2, Cell.num 1]),
        ("children", [Cell.num 0, Cell.num 0]),
        ("babies", [Cell.num 0, Cell.num 0]),
        ("lead_time", [Cell.num 10, Cell.num 20]),
        ("reservation_year", [Cell.num 2017, Cell.num 2016]),
        ("reservation_month", [Cell.num 3, Cell.num 7]),
        ("reservation_day", [Cell.num 5, Cell.num 1]),
        ("reservation_weekday", [Cell.num 6, Cell.num 4])]⟩ : DF).colNames
  ∧ "reservation_status_date" ∉ (normalizeR ⟨2, [("adults", [Cell.num 2, Cell.num 1]),
        ("children", [Cell.num 0, Cell.num 0]),
        ("babies", [Cell.num 0, Cell.num 0]),
        ("lead_time", [Cell.num 10, Cell.num 20]),
        ("reservation_status_date",
          [Cell.str "2017-03-05", Cell.str "2016-07-01"])]⟩).colNames :=
  C9_date_derivation
    ⟨2, [("adults", [Cell.num 2, Cell.num 1]),
        ("children", [Cell.num 0, Cell.num 0]),
        ("babies", [Cell.num 0, Cell.num 0]),
        ("lead_time", [Cell.num 10, Cell.num 20]),
        ("reservation_status_date",
          [Cell.str "2017-03-05", Cell.str "2016-07-01"])]⟩
    ⟨2, [("adults", [Cell.num 2, Cell.num 1]),
        ("children", [Cell.num 0, Cell.num 0]),
        ("babies", [Cell.num 0, Cell.num 0]),
        ("lead_time", [Cell.num 10, Cell.num 20]),
        ("reservation_year", [Cell.num 2017, Cell.num 2016]),
        ("reservation_month", [Cell.num 3, Cell.num 7]),
        ("reservation_day", [Cell.num 5, Cell.num 1]),
        ("reservation_weekday", [Cell.num 6, Cell.num 4])]⟩
    [Cell.str "2017-03-05", Cell.str "2016-07-01"] 0
    (by decide) (by decide) (by decide)

/-- No row of the frame has `adults`, `children` and `babies` all equal
to zero (stated positionally over the three guest-count columns). -/
def noAllZeroGuests (df : DF) : Prop :=
  ∀ ga gc gb, df.getCol "adults" = some ga → df.getCol "children" = some gc →
    df.getCol "babies" = some gb → ∀ i,
      ¬(cellEqZero (ga.getD i Cell.null) = true
        ∧ cellEqZero (gc.getD i Cell.null) = true
        ∧ cellEqZero (gb.getD i Cell.null) = true)

/-- C5 (amended): every column of the classification Record Normalizer's
output that is not one of the four derived calendar fields is null-free
(the `dropna` happens before date parsing and later steps only filter
rows), and no surviving row has all three guest counts zero.  The four
derived calendar fields are exempt: an unparseable status date leaves the
row in place with null-valued derived fields (see the counterexample). -/
theorem C5_normalizer_amended (df out : DF)
    (h : normalizeC df = Except.ok out) :
    (∀ col ∈ out.cols, col.1 ∉ derivedDateCols → ∀ x ∈ col.2, x.isNull = false)
  ∧ noAllZeroGuests out := by
  unfold normalizeC at h
  cases hg : guestStep (dropnaStep (df.dropCols ["company", "agent"])) with
  | error e => rw [hg] at h; simp [Except.map] at h
  | ok d =>
    rw [hg] at h
    simp only [Except.map] at h
    cases h
    unfold guestStep at hg
    cases ha : (dropnaStep (df.dropCols ["company", "agent"])).getCol "adults" with
    | none => rw [ha] at hg; cases hg
    | some ga =>
      rw [ha] at hg
      cases hc : (dropnaStep (df.dropCols ["company", "agent"])).getCol "children" with
      | none => rw [hc] at hg; cases hg
      | some gc =>
        rw [hc] at hg
        cases hb : (dropnaStep (df.dropCols ["company", "agent"])).getCol "babies" with
        | none => rw [hb] at hg; cases hg
        | some gb =>
          rw [hb] at hg
          cases hg
          constructor
          · intro col hcol hder x hx
            have h1 := mem_dateStep _ _ hcol hder
            simp only [DF.applyMask, List.mem_map] at h1
            obtain ⟨c0, hc0, rfl⟩ := h1
            exact dropnaStep_nonnull _ c0 hc0 x (mem_maskFilter _ _ _ hx)
          · intro ga' gc' gb' ha' hc' hb' i
            rw [getCol_dateStep_ne _ "adults" (by decide) (by decide),
              getCol_applyMask, ha, Option.map_some'] at ha'
            rw [getCol_dateStep_ne _ "children" (by decide) (by decide),
              getCol_applyMask, hc, Option.map_some'] at hc'
            rw [getCol_dateStep_ne _ "babies" (by decide) (by decide),
              getCol_applyMask, hb, Option.map_some'] at hb'
            cases ha'
            cases hc'
            cases hb'
            exact guestKeepMask_sound ga gc gb i

/-- C5 counterexample: with an unparseable status date the Record
Normalizer keeps the row (no drop at this stage) but its derived
`reservation_year` is null — a null in a retained column of the
Normalized Record Set, refuting the claim that no retained column of any
row is null. -/
theorem C5_counterexample :
    (normalizeC ⟨1, [("adults", [Cell.num 1]), ("children", [Cell.num 0]),
        ("babies", [Cell.num 0]),
        ("reservation_status_date", [Cell.str "garbage"])]⟩).map
      (fun d => (d.nrows, d.getCol "reservation_year"))
      = Except.ok (1, some [Cell.null]) := by
  decide

/-- C5 witness: a complete one-row record with a parseable date satisfies
the amended invariant. -/
theorem C5_normalizer_amended_witness :
    (∀ col ∈ (⟨1, [("adults", [Cell.num 1]), ("children", [Cell.num 0]),
        ("babies", [Cell.num 0]), ("reservation_year", [Cell.num 2017]),
        ("reservation_month", [Cell.num 1]), ("reservation_day", [Cell.num 2]),
        ("reservation_weekday", [Cell.num 0])]⟩ : DF).cols,
      col.1 ∉ derivedDateCols → ∀ x ∈ col.2, x.isNull = false)
  ∧ noAllZeroGuests ⟨1, [("adults", [Cell.num 1]), ("children", [Cell.num 0]),
        ("babies", [Cell.num 0]), ("reservation_year", [Cell.num 2017]),
        ("reservation_month", [Cell.num 1]), ("reservation_day", [Cell.num 2]),
        ("reservation_weekday", [Cell.num 0])]⟩ :=
  C5_normalizer_amended
    ⟨1, [("adults", [Cell.num 1]), ("children", [Cell.num 0]),
        ("babies", [Cell.num 0]),
        ("reservation_status_date", [Cell.str "2017-01-02"])]⟩
    ⟨1, [("adults", [Cell.num 1]), ("children", [Cell.num 0]),
        ("babies", [Cell.num 0]), ("reservation_year", [Cell.num 2017]),
        ("reservation_month", [Cell.num 1]), ("reservation_day", [Cell.num 2]),
        ("reservation_weekday", [Cell.num 0])]⟩
    (by decide)
